import Mathlib

/-!
# School-Management-System: the student CRUD handlers of `main.go`

A shallow embedding of the five gin handlers of `main.go`
(`registerStudent`, `getStudent`, `updateStudentDetails`,
`deleteStudentHandler`, `getAllStudents`) together with the two library
collaborators they are written against:

* the JSON binding of gin (`c.ShouldBindJSON`, which runs Go's `encoding/json`
  decoder on the request body and then the struct validator; the decoder reads
  the first JSON value of the body and nothing after it, and the `Student`
  struct carries no `binding` tag, so the validator accepts every value);
* the `students` collection of the MongoDB driver (`InsertOne`, `FindOne`,
  `UpdateOne`, `DeleteOne`, `Find`), modelled as the list of its documents in
  natural (insertion) order.  A driver call either carries out its operation or
  reports an error (a timeout of its 5 second context, a lost connection) and
  then leaves the collection as it was; which of the two happens is an input
  of the model.  Nothing in `main.go` or in the driver calls it makes keeps
  the `emailId` of the documents unique.
-/

namespace SchoolManagement

/-! ## Data model -/

/-- The `Student` struct of `main.go` (lines 35-41); `Age` is an `int64`. -/
structure Student where
  Firstname : String
  Lastname : String
  Age : Int
  Department : String
  EmailId : String
  deriving DecidableEq, Repr

/-- The zero value of `Student`, which `var student Student` declares. -/
def Student.zero : Student := ⟨"", "", 0, "", ""⟩

/-- The five tagged fields of `Student`. -/
inductive Field where
  | firstname
  | lastname
  | age
  | department
  | emailId
  deriving DecidableEq, Repr

/-- The `json:"..."` tag of each field. -/
def Field.tag : Field → String
  | .firstname => "firstname"
  | .lastname => "lastname"
  | .age => "age"
  | .department => "department"
  | .emailId => "emailId"

/-- All fields, in declaration order. -/
def Field.all : List Field :=
  [.firstname, .lastname, .age, .department, .emailId]

/-! ## Request bodies and JSON binding -/

/-- A JSON value.  Number literals are split into the integer literals and the
literals with a fraction or an exponent, which Go does not store into an
integer field. -/
inductive JSON where
  | null
  | bool (b : Bool)
  | int (n : Int)
  | real (literal : String)
  | str (s : String)
  | arr (items : List JSON)
  | obj (members : List (String × JSON))

mutual
/-- Nesting of a JSON value: the number of arrays and objects open at its
deepest point, which is the height of the parse stack of the scanner. -/
def JSON.depth : JSON → Nat
  | .arr items => JSON.depthItems items + 1
  | .obj members => JSON.depthMembers members + 1
  | _ => 0
/-- Deepest nesting among the items of an array. -/
def JSON.depthItems : List JSON → Nat
  | [] => 0
  | v :: vs => max (JSON.depth v) (JSON.depthItems vs)
/-- Deepest nesting among the member values of an object. -/
def JSON.depthMembers : List (String × JSON) → Nat
  | [] => 0
  | m :: ms => max (JSON.depth m.2) (JSON.depthMembers ms)
end

/-- The constant `maxNestingDepth` of the scanner of `encoding/json`. -/
def maxNestingDepth : Nat := 10000

/-- A request body, as `Decoder.Decode` reads it.  The decoder takes the first
JSON value of the text and stops there: `json v rest` is a text that starts
(after white space) with the value `v` and goes on with `rest`, which is never
looked at, so `rest` may be anything; `malformed` is a text that has no
complete JSON value at its start (the empty body, a syntax error inside the
first value) or a body that cannot be read. -/
inductive Body where
  | malformed
  | json (v : JSON) (rest : String)

/-- The error of `ShouldBindJSON`: an error of the scanner (no JSON value at the
start of the text, nesting beyond `maxNestingDepth`), or a JSON value that does not
fit the Go type it is decoded into (`field = none` for the body as a whole). -/
inductive BindError where
  | malformedJSON
  | unmarshalType (field : Option Field)
  deriving DecidableEq, Repr

/-- Case folding of `encoding/json` on one rune, as far as it can reach an
ASCII letter: ASCII lower case goes to upper case, and the Kelvin sign and the
long s are in the fold orbits of `K` and `S`. -/
def foldRune (c : Char) : Char :=
  if 97 ≤ c.toNat ∧ c.toNat ≤ 122 then Char.ofNat (c.toNat - 32)
  else if c.toNat = 0x212A then 'K'
  else if c.toNat = 0x17F then 'S'
  else c

/-- Folded form of an object key. -/
def foldName (s : String) : List Char := s.toList.map foldRune

/-- The struct field an object key is decoded into: the field whose tag is the
key, exactly or up to case folding; keys of no field are skipped. -/
def fieldOf (key : String) : Option Field :=
  match Field.all.find? (fun f => f.tag = key) with
  | some f => some f
  | none => Field.all.find? (fun f => foldName f.tag = foldName key)

/-- Range of `int64`. -/
def inInt64 (n : Int) : Bool := -(2 ^ 63) ≤ n && n < 2 ^ 63

/-- Store one member value into its field.  `null` leaves the field as it is; a
string field takes a JSON string, `Age` takes an integer literal in the `int64`
range; anything else is an `UnmarshalTypeError`. -/
def storeField (s : Student) (f : Field) (v : JSON) : Except BindError Student :=
  match v with
  | .null => .ok s
  | .str x =>
    match f with
    | .firstname => .ok { s with Firstname := x }
    | .lastname => .ok { s with Lastname := x }
    | .department => .ok { s with Department := x }
    | .emailId => .ok { s with EmailId := x }
    | .age => .error (.unmarshalType (some .age))
  | .int n =>
    match f with
    | .age => if inInt64 n then .ok { s with Age := n } else .error (.unmarshalType (some .age))
    | _ => .error (.unmarshalType (some f))
  | _ => .error (.unmarshalType (some f))

/-- Decode the members of a JSON object into `s`, in the order of the text; a
later member of the same field overwrites an earlier one. -/
def decodeMembers (s : Student) : List (String × JSON) → Except BindError Student
  | [] => .ok s
  | (key, v) :: rest =>
    match fieldOf key with
    | none => decodeMembers s rest
    | some f =>
      match storeField s f v with
      | .ok s1 => decodeMembers s1 rest
      | .error e => .error e

/-- The call `c.ShouldBindJSON(&student)` on a zero `student`: the decoder of
`encoding/json` followed by the validator, which has nothing to check because
no field of `Student` has a `binding` tag.  The scanner first runs over the
first value of the text, refusing nesting beyond `maxNestingDepth`; the value
is then decoded; the text after it is not read. -/
def ShouldBindJSON : Body → Except BindError Student
  | .malformed => .error .malformedJSON
  | .json v _ =>
    if maxNestingDepth < v.depth then .error .malformedJSON
    else
      match v with
      | .null => .ok Student.zero
      | .obj members => decodeMembers Student.zero members
      | _ => .error (.unmarshalType none)

/-- A member value of the declared JSON type of field `f`, `null` included. -/
def fitsField (f : Field) : JSON → Bool
  | .null => true
  | .str _ => decide (f ≠ .age)
  | .int n => decide (f = .age) && inInt64 n
  | _ => false

/-- Shape conformance of a body, the way the specification words it for
payloads ("of the declared type"), without its demand that the fields be
present: the text starts with a JSON value, nested no deeper than
`maxNestingDepth`, that is `null` or an object each of whose members that names
a field has a value of the declared type of that field.  What follows the
value does not count. -/
def wellShaped : Body → Bool
  | .malformed => false
  | .json v _ =>
    decide (v.depth ≤ maxNestingDepth) &&
      match v with
      | .null => true
      | .obj members =>
        members.all (fun m =>
          match fieldOf m.1 with
          | none => true
          | some f => fitsField f m.2)
      | _ => false

/-! ## The collection -/

/-- The `students` collection: its documents in natural order. -/
abbrev Collection := List Student

/-- Outcome of `UpdateOne` (`mongo.UpdateResult`). -/
structure UpdateResult where
  MatchedCount : Nat
  ModifiedCount : Nat
  UpsertedCount : Nat
  deriving DecidableEq, Repr

/-- Outcome of `DeleteOne` (`mongo.DeleteResult`). -/
structure DeleteResult where
  DeletedCount : Nat
  deriving DecidableEq, Repr

/-- The driver call `InsertOne(ctx, doc)`: the document is stored as it is, after the
documents already there. -/
def InsertOne (doc : Student) (coll : Collection) : Collection := coll ++ [doc]

/-- The driver call `FindOne(ctx, bson.M{"emailId": key})`: the first document
whose `emailId` is `key`, `none` standing for `mongo.ErrNoDocuments`. -/
def FindOne (key : String) : Collection → Option Student
  | [] => none
  | d :: ds => if d.EmailId = key then some d else FindOne key ds

/-- The driver call `UpdateOne(ctx, bson.M{"emailId": key}, update)` without
upsert: `update` is applied to the first document whose `emailId` is `key`;
`ModifiedCount` counts it only when the document changed. -/
def UpdateOne (key : String) (update : Student → Student) :
    Collection → UpdateResult × Collection
  | [] => (⟨0, 0, 0⟩, [])
  | d :: ds =>
    if d.EmailId = key then
      (⟨1, if update d = d then 0 else 1, 0⟩, update d :: ds)
    else
      ((UpdateOne key update ds).1, d :: (UpdateOne key update ds).2)

/-- The driver call `DeleteOne(ctx, bson.M{"emailId": key})`: the first document whose
`emailId` is `key` is removed. -/
def DeleteOne (key : String) : Collection → DeleteResult × Collection
  | [] => (⟨0⟩, [])
  | d :: ds =>
    if d.EmailId = key then (⟨1⟩, ds)
    else ((DeleteOne key ds).1, d :: (DeleteOne key ds).2)

/-- The driver call `Find(ctx, bson.M{})`: a cursor over every document. -/
def Find (coll : Collection) : List Student := coll

/-- A Go value of type `[]Student`: the nil slice, or a slice over an array. -/
inductive StudentSlice where
  | nil
  | of (items : List Student)
  deriving DecidableEq, Repr

/-- The elements of a slice; the nil slice has none. -/
def StudentSlice.toList : StudentSlice → List Student
  | .nil => []
  | .of items => items

/-- The driver call `cursor.All(ctx, &results)`: the documents of the cursor are
written into `results` from index 0 and `results` is cut to their number.
With no document nothing is written, and cutting a nil slice to length 0
gives the nil slice again. -/
def cursorAll (docs : List Student) (results : StudentSlice) : StudentSlice :=
  match docs, results with
  | [], .nil => .nil
  | [], .of _ => .of []
  | d :: ds, _ => .of (d :: ds)

/-- JSON written by `encoding/json` for a `Student`: an object with the five
tagged members. -/
def Student.toJSON (s : Student) : JSON :=
  .obj [("firstname", .str s.Firstname), ("lastname", .str s.Lastname), ("age", .int s.Age),
    ("department", .str s.Department), ("emailId", .str s.EmailId)]

/-- JSON written by `encoding/json` for a `[]Student`: `null` for the nil slice,
an array for any other slice, the empty one included. -/
def StudentSlice.toJSON : StudentSlice → JSON
  | .nil => .null
  | .of items => .arr (items.map Student.toJSON)

/-! ## Responses -/

/-- The value handed to `c.JSON`: a `gin.H` with one `error` entry, the result
struct of the driver, the decoded `student`, or the slice `students`. -/
inductive Payload where
  | error (message : String)
  | bindError (e : BindError)
  | insertResult
  | student (s : Student)
  | students (l : StudentSlice)
  | updateResult (r : UpdateResult)
  | deleteResult (r : DeleteResult)
  deriving DecidableEq, Repr

/-- A response written by `c.JSON(status, body)`. -/
structure Response where
  status : Nat
  body : Payload
  deriving DecidableEq, Repr

/-- Status constant `http.StatusOK`. -/
def StatusOK : Nat := 200
/-- Status constant `http.StatusBadRequest`. -/
def StatusBadRequest : Nat := 400
/-- Status constant `http.StatusNotFound`. -/
def StatusNotFound : Nat := 404
/-- Status constant `http.StatusInternalServerError`. -/
def StatusInternalServerError : Nat := 500

/-! ## The handlers

Each handler takes the request (body, path parameter), the error the driver
reports for its storage call (`none` when the call goes through) and the
collection, and returns the response with the collection afterwards. -/

/-- Handler `registerStudent` (`main.go` lines 43-57). -/
def registerStudent (body : Body) (err : Option String) (collection : Collection) :
    Response × Collection :=
  match ShouldBindJSON body with
  | .error e => (⟨StatusBadRequest, .bindError e⟩, collection)
  | .ok student =>
    match err with
    | some _ => (⟨StatusInternalServerError, .error "Database error"⟩, collection)
    | none => (⟨StatusOK, .insertResult⟩, InsertOne student collection)

/-- Handler `getStudent` (`main.go` lines 59-74). -/
def getStudent (emailID : String) (err : Option String) (collection : Collection) :
    Response × Collection :=
  match err with
  | some _ => (⟨StatusInternalServerError, .error "Database error"⟩, collection)
  | none =>
    match FindOne emailID collection with
    | none => (⟨StatusNotFound, .error "Student not found"⟩, collection)
    | some student => (⟨StatusOK, .student student⟩, collection)

/-- The `$set` document built by `updateStudentDetails` (lines 85-93), as the
change it makes to a stored document. -/
def setFields (updatedStudent : Student) (d : Student) : Student :=
  { d with
    Firstname := updatedStudent.Firstname
    Lastname := updatedStudent.Lastname
    Age := updatedStudent.Age
    Department := updatedStudent.Department
    EmailId := updatedStudent.EmailId }

/-- Handler `updateStudentDetails` (`main.go` lines 76-100). -/
def updateStudentDetails (emailID : String) (body : Body) (err : Option String)
    (collection : Collection) : Response × Collection :=
  match ShouldBindJSON body with
  | .error e => (⟨StatusBadRequest, .bindError e⟩, collection)
  | .ok updatedStudent =>
    match err with
    | some _ => (⟨StatusInternalServerError, .error "Database error"⟩, collection)
    | none =>
      (⟨StatusOK, .updateResult (UpdateOne emailID (setFields updatedStudent) collection).1⟩,
        (UpdateOne emailID (setFields updatedStudent) collection).2)

/-- Handler `deleteStudentHandler` (`main.go` lines 102-112). -/
def deleteStudentHandler (emailID : String) (err : Option String) (collection : Collection) :
    Response × Collection :=
  match err with
  | some _ => (⟨StatusInternalServerError, .error "Database error"⟩, collection)
  | none =>
    (⟨StatusOK, .deleteResult (DeleteOne emailID collection).1⟩, (DeleteOne emailID collection).2)

/-- Handler `getAllStudents` (`main.go` lines 114-129); `findErr` is the error of
`collection.Find`, `allErr` the error of `cursor.All`.  Line 115 declares
`students` as the nil slice, and that is what `cursor.All` is given. -/
def getAllStudents (findErr allErr : Option String) (collection : Collection) :
    Response × Collection :=
  match findErr with
  | some _ => (⟨StatusInternalServerError, .error "Database error"⟩, collection)
  | none =>
    match allErr with
    | some _ => (⟨StatusInternalServerError, .error "Database error"⟩, collection)
    | none => (⟨StatusOK, .students (cursorAll (Find collection) .nil)⟩, collection)

/-! ## Requests and runs -/

/-- A request to one of the five routes of `main` (lines 141-145), with the
driver errors met while it is served. -/
inductive Request where
  | register (body : Body) (err : Option String)
  | get (emailId : String) (err : Option String)
  | list (findErr allErr : Option String)
  | update (emailId : String) (body : Body) (err : Option String)
  | delete (emailId : String) (err : Option String)

/-- Route a request to its handler. -/
def serve (r : Request) (collection : Collection) : Response × Collection :=
  match r with
  | .register body err => registerStudent body err collection
  | .get k err => getStudent k err collection
  | .list e1 e2 => getAllStudents e1 e2 collection
  | .update k body err => updateStudentDetails k body err collection
  | .delete k err => deleteStudentHandler k err collection

/-- The collection after serving the requests in order. -/
def run : List Request → Collection → Collection
  | [], collection => collection
  | r :: rs, collection => run rs (serve r collection).2

/-- Every request of the run is answered with status 200. -/
def allSucceed : List Request → Collection → Bool
  | [], _ => true
  | r :: rs, collection =>
    (serve r collection).1.status == StatusOK && allSucceed rs (serve r collection).2

/-- The `emailId` of the body of a request when the request is a register whose
body binds. -/
def registeredKey : Request → Option String
  | .register body _ =>
    match ShouldBindJSON body with
    | .ok s => some s.EmailId
    | .error _ => none
  | _ => none

/-- The `emailId` of the body of a request when the request is a register or an
update whose body binds. -/
def bodyKey : Request → Option String
  | .register body _ =>
    match ShouldBindJSON body with
    | .ok s => some s.EmailId
    | .error _ => none
  | .update _ body _ =>
    match ShouldBindJSON body with
    | .ok s => some s.EmailId
    | .error _ => none
  | _ => none

/-- The error the driver reports to the handler of a request, for the requests
whose handler gets as far as its storage call (`cursor.All` is reached only
after `Find` went through). -/
def driverError : Request → Option String
  | .register body err =>
    match ShouldBindJSON body with
    | .ok _ => err
    | .error _ => none
  | .get _ err => err
  | .list findErr allErr =>
    match findErr with
    | some e => some e
    | none => allErr
  | .update _ body err =>
    match ShouldBindJSON body with
    | .ok _ => err
    | .error _ => none
  | .delete _ err => err

/-- The error of binding the body of a request, for the two requests that
carry a body. -/
def bindFailure : Request → Option BindError
  | .register body _ =>
    match ShouldBindJSON body with
    | .ok _ => none
    | .error e => some e
  | .update _ body _ =>
    match ShouldBindJSON body with
    | .ok _ => none
    | .error e => some e
  | _ => none

/-! ## Sample data -/

/-- The example body of the specification. -/
def annBody : Body :=
  .json (.obj [("firstname", .str "Ann"), ("lastname", .str "Lee"), ("age", .int 20),
    ("department", .str "CS"), ("emailId", .str "a@x.com")]) ""

/-- The record `annBody` binds to. -/
def ann : Student := ⟨"Ann", "Lee", 20, "CS", "a@x.com"⟩

/-- The example body without its `age` member. -/
def annNoAgeBody : Body :=
  .json (.obj [("firstname", .str "Ann"), ("lastname", .str "Lee"),
    ("department", .str "CS"), ("emailId", .str "a@x.com")]) ""

/-- A body with text after its JSON object: an object with the single member
`emailId`, followed by the word `trailing`. -/
def trailingBody : Body :=
  .json (.obj [("emailId", .str "t@x.com")]) " trailing"

/-- A second body with the key of `annBody`. -/
def bobBody : Body :=
  .json (.obj [("firstname", .str "Bob"), ("lastname", .str "Ray"), ("age", .int 31),
    ("department", .str "EE"), ("emailId", .str "a@x.com")]) ""

/-- The record `bobBody` binds to. -/
def bob : Student := ⟨"Bob", "Ray", 31, "EE", "a@x.com"⟩

/-- A body with another key. -/
def calBody : Body :=
  .json (.obj [("firstname", .str "Cal"), ("lastname", .str "Poe"), ("age", .int 19),
    ("department", .str "ME"), ("emailId", .str "c@x.com")]) ""

/-- The record `calBody` binds to. -/
def cal : Student := ⟨"Cal", "Poe", 19, "ME", "c@x.com"⟩

/-! ## Binding of the sample bodies -/

theorem bind_annBody : ShouldBindJSON annBody = .ok ann := by rfl

theorem bind_bobBody : ShouldBindJSON bobBody = .ok bob := by rfl

theorem bind_calBody : ShouldBindJSON calBody = .ok cal := by rfl

theorem bind_annNoAgeBody : ShouldBindJSON annNoAgeBody = .ok { ann with Age := 0 } := by rfl

/-! ## The collection operations -/

theorem FindOne_eq_none_iff (k : String) (l : Collection) :
    FindOne k l = none ↔ ∀ d ∈ l, d.EmailId ≠ k := by
  induction l with
  | nil => simp [FindOne]
  | cons d ds ih =>
    by_cases h : d.EmailId = k
    · simp [FindOne, h]
    · simp [FindOne, h, ih]

theorem FindOne_key (k : String) (l : Collection) (d : Student) (h : FindOne k l = some d) :
    d.EmailId = k ∧ d ∈ l := by
  induction l with
  | nil => simp [FindOne] at h
  | cons x xs ih =>
    by_cases hx : x.EmailId = k
    · simp [FindOne, hx] at h
      subst h
      exact ⟨hx, List.mem_cons_self _ _⟩
    · simp [FindOne, hx] at h
      exact ⟨(ih h).1, List.mem_cons_of_mem _ (ih h).2⟩

theorem FindOne_append_of_none (k : String) (l1 l2 : Collection) (h : FindOne k l1 = none) :
    FindOne k (l1 ++ l2) = FindOne k l2 := by
  induction l1 with
  | nil => rfl
  | cons d ds ih =>
    by_cases hd : d.EmailId = k
    · simp [FindOne, hd] at h
    · simp [FindOne, hd] at h
      simp [FindOne, hd, ih h]

theorem FindOne_append_of_some (k : String) (l1 l2 : Collection) (d : Student)
    (h : FindOne k l1 = some d) : FindOne k (l1 ++ l2) = some d := by
  induction l1 with
  | nil => simp [FindOne] at h
  | cons x xs ih =>
    by_cases hx : x.EmailId = k
    · simp [FindOne, hx] at h
      subst h
      simp [FindOne, hx]
    · simp [FindOne, hx] at h
      simp [FindOne, hx, ih h]

/-- A collection with a document of key `k` splits at the first such document. -/
theorem exists_first_with_key (k : String) (l : Collection) (h : ∃ d ∈ l, d.EmailId = k) :
    ∃ pre old post, l = pre ++ old :: post ∧ old.EmailId = k ∧ ∀ x ∈ pre, x.EmailId ≠ k := by
  induction l with
  | nil => simp at h
  | cons d ds ih =>
    by_cases hd : d.EmailId = k
    · exact ⟨[], d, ds, rfl, hd, by simp⟩
    · have h2 : ∃ x ∈ ds, x.EmailId = k := by
        obtain ⟨x, hx, hxk⟩ := h
        rcases List.mem_cons.mp hx with rfl | hx
        · exact absurd hxk hd
        · exact ⟨x, hx, hxk⟩
      obtain ⟨pre, old, post, hl, hold, hpre⟩ := ih h2
      refine ⟨d :: pre, old, post, by simp [hl], hold, ?_⟩
      intro x hx
      rcases List.mem_cons.mp hx with rfl | hx
      · exact hd
      · exact hpre x hx

theorem UpdateOne_of_no_match (k : String) (u : Student → Student) (l : Collection)
    (h : ∀ d ∈ l, d.EmailId ≠ k) : UpdateOne k u l = (⟨0, 0, 0⟩, l) := by
  induction l with
  | nil => rfl
  | cons d ds ih =>
    have hd : d.EmailId ≠ k := h d (List.mem_cons_self _ _)
    have hds := ih (fun x hx => h x (List.mem_cons_of_mem _ hx))
    simp [UpdateOne, hd, hds]

theorem UpdateOne_at_first (k : String) (u : Student → Student) (pre post : Collection)
    (old : Student) (hold : old.EmailId = k) (hpre : ∀ x ∈ pre, x.EmailId ≠ k) :
    UpdateOne k u (pre ++ old :: post)
      = (⟨1, if u old = old then 0 else 1, 0⟩, pre ++ u old :: post) := by
  induction pre with
  | nil => simp [UpdateOne, hold]
  | cons d ds ih =>
    have hd : d.EmailId ≠ k := hpre d (List.mem_cons_self _ _)
    have hds := ih (fun x hx => hpre x (List.mem_cons_of_mem _ hx))
    simp [UpdateOne, hd, hds]

theorem DeleteOne_of_no_match (k : String) (l : Collection)
    (h : ∀ d ∈ l, d.EmailId ≠ k) : DeleteOne k l = (⟨0⟩, l) := by
  induction l with
  | nil => rfl
  | cons d ds ih =>
    have hd : d.EmailId ≠ k := h d (List.mem_cons_self _ _)
    have hds := ih (fun x hx => h x (List.mem_cons_of_mem _ hx))
    simp [DeleteOne, hd, hds]

theorem DeleteOne_at_first (k : String) (pre post : Collection)
    (old : Student) (hold : old.EmailId = k) (hpre : ∀ x ∈ pre, x.EmailId ≠ k) :
    DeleteOne k (pre ++ old :: post) = (⟨1⟩, pre ++ post) := by
  induction pre with
  | nil => simp [DeleteOne, hold]
  | cons d ds ih =>
    have hd : d.EmailId ≠ k := hpre d (List.mem_cons_self _ _)
    have hds := ih (fun x hx => hpre x (List.mem_cons_of_mem _ hx))
    simp [DeleteOne, hd, hds]

theorem setFields_eq (b d : Student) : setFields b d = b := by
  cases b
  rfl

theorem FindOne_after_DeleteOne (k : String) (l : Collection)
    (h : l.countP (fun d => decide (d.EmailId = k)) ≤ 1) :
    FindOne k (DeleteOne k l).2 = none := by
  induction l with
  | nil => rfl
  | cons d ds ih =>
    by_cases hd : d.EmailId = k
    · have h0 : ds.countP (fun d => decide (d.EmailId = k)) = 0 := by
        simp [List.countP_cons, hd] at h
        simpa using h
      have hnone : ∀ x ∈ ds, x.EmailId ≠ k := by
        intro x hx hxk
        have := List.countP_eq_zero.mp h0 x hx
        simp [hxk] at this
      simpa [DeleteOne, hd] using (FindOne_eq_none_iff k ds).mpr hnone
    · have h1 : ds.countP (fun d => decide (d.EmailId = k)) ≤ 1 := by
        simpa [List.countP_cons, hd] using h
      simp [DeleteOne, hd, FindOne, ih h1]

/-! ## Register, then look up -/

/-- Claim C1, as the code has it: when no stored record carries the key
`s.emailId`, `registerStudent` with a body that binds to `s` (storage
succeeding) followed by `getStudent` with path key `s.emailId` returns status
200 and the record `s`, all five fields. -/
theorem register_then_get_fresh (collection : Collection) (body : Body) (s : Student)
    (hbind : ShouldBindJSON body = .ok s)
    (hfresh : ∀ d ∈ collection, d.EmailId ≠ s.EmailId) :
    (getStudent s.EmailId none (registerStudent body none collection).2).1
      = ⟨StatusOK, .student s⟩ := by
  have hnone := (FindOne_eq_none_iff s.EmailId collection).mpr hfresh
  have hfind : FindOne s.EmailId (collection ++ [s]) = some s := by
    rw [FindOne_append_of_none _ _ _ hnone]
    simp [FindOne]
  simp [registerStudent, hbind, getStudent, InsertOne, hfind]

theorem register_then_get_fresh_witness :
    (getStudent ann.EmailId none (registerStudent annBody none [cal]).2).1
      = ⟨StatusOK, .student ann⟩ :=
  register_then_get_fresh [cal] annBody ann bind_annBody (by decide)

/-- Claim C1 fails as stated: with a record of key `a@x.com` already stored
(itself put there by a register request), registering `ann` under the same key
and looking the key up returns the older record, whose fields are not those of
the posted body. -/
theorem register_then_get_returns_older_record :
    ShouldBindJSON annBody = .ok ann
      ∧ run [.register bobBody none] [] = [bob]
      ∧ (getStudent ann.EmailId none (registerStudent annBody none [bob]).2).1
          = ⟨StatusOK, .student bob⟩
      ∧ bob.Firstname ≠ ann.Firstname := by
  refine ⟨rfl, rfl, rfl, by decide⟩

/-! ## Bodies that do not bind -/

theorem storeField_error_iff (s : Student) (f : Field) (v : JSON) :
    (∃ e, storeField s f v = .error e) ↔ fitsField f v = false := by
  cases v <;> cases f <;> simp [storeField, fitsField]
  split <;> simp_all

theorem decodeMembers_error_iff (s : Student) (members : List (String × JSON)) :
    (∃ e, decodeMembers s members = .error e) ↔
      members.all (fun m =>
        match fieldOf m.1 with
        | none => true
        | some f => fitsField f m.2) = false := by
  induction members generalizing s with
  | nil => simp [decodeMembers]
  | cons m rest ih =>
    obtain ⟨key, v⟩ := m
    cases hf : fieldOf key with
    | none => simpa [decodeMembers, hf] using ih s
    | some f =>
      cases hs : storeField s f v with
      | ok s1 =>
        have hfit : fitsField f v = true := by
          by_contra hc
          have := (storeField_error_iff s f v).mpr (by simpa using hc)
          simp [hs] at this
        simpa [decodeMembers, hf, hs, hfit] using ih s1
      | error e =>
        have hfit : fitsField f v = false := (storeField_error_iff s f v).mp ⟨e, hs⟩
        simp [decodeMembers, hf, hs, hfit]

theorem ShouldBindJSON_error_iff (body : Body) :
    (∃ e, ShouldBindJSON body = .error e) ↔ wellShaped body = false := by
  cases body with
  | malformed => simp [ShouldBindJSON, wellShaped]
  | json v rest =>
    by_cases hd : maxNestingDepth < v.depth
    · simp [ShouldBindJSON, wellShaped, hd]
    · have hle : v.depth ≤ maxNestingDepth := Nat.le_of_not_lt hd
      cases v with
      | obj members =>
        simpa [ShouldBindJSON, wellShaped, hd, hle] using decodeMembers_error_iff _ members
      | _ => simp [ShouldBindJSON, wellShaped, hd]

/-- The text after the first JSON value of a body plays no part in binding. -/
theorem ShouldBindJSON_rest (v : JSON) (rest : String) :
    ShouldBindJSON (.json v rest) = ShouldBindJSON (.json v "") := by
  rfl

/-- A body with text after its JSON object is bound from the object alone and
inserted. -/
theorem register_trailing_text_is_inserted :
    registerStudent trailingBody none []
      = (⟨200, .insertResult⟩, [⟨"", "", 0, "", "t@x.com"⟩]) := by
  rfl

/-- Claim C2, as the code has it: for every store state and every body whose
text does not start with a JSON value, or whose first JSON value is nested
deeper than the decoder allows, is neither an object nor `null`, or is an
object with a member of the wrong JSON type for the field it names,
`registerStudent` responds with status 400 carrying the bind error and leaves
the store unchanged, whatever the storage would have done.  Leaving a member
out does not make such a body, and neither does text after the first value. -/
theorem register_ill_shaped_body_rejected (collection : Collection) (body : Body)
    (err : Option String) (hshape : wellShaped body = false) :
    ∃ e, registerStudent body err collection
      = (⟨StatusBadRequest, .bindError e⟩, collection) := by
  obtain ⟨e, he⟩ := (ShouldBindJSON_error_iff body).mpr hshape
  exact ⟨e, by simp [registerStudent, he]⟩

theorem register_ill_shaped_body_rejected_witness :
    wellShaped (.json (.obj [("firstname", .str "Ann"), ("age", .str "20")]) "") = false
      ∧ ∃ e, registerStudent (.json (.obj [("firstname", .str "Ann"), ("age", .str "20")]) "")
          none [cal] = (⟨StatusBadRequest, .bindError e⟩, [cal]) :=
  ⟨rfl, register_ill_shaped_body_rejected [cal]
    (.json (.obj [("firstname", .str "Ann"), ("age", .str "20")]) "") none rfl⟩

/-- Claim C2 fails as stated: the body of the specification without its `age`
member binds with `Age = 0`; `registerStudent` answers 200, not 400, and the
record is inserted. -/
theorem register_without_age_is_inserted :
    registerStudent annNoAgeBody none []
      = (⟨200, .insertResult⟩, [⟨"Ann", "Lee", 0, "CS", "a@x.com"⟩]) := by
  rfl

/-! ## Delete, then look up -/

/-- Claim C3, as the code has it: for every store state in which at most one
record carries the key `k`, `deleteStudentHandler` with path key `k` (storage
succeeding) followed by `getStudent` with the same key returns status 404. -/
theorem delete_then_get_not_found (collection : Collection) (k : String)
    (hone : collection.countP (fun d => decide (d.EmailId = k)) ≤ 1) :
    (getStudent k none (deleteStudentHandler k none collection).2).1
      = ⟨StatusNotFound, .error "Student not found"⟩ := by
  simp [deleteStudentHandler, getStudent, FindOne_after_DeleteOne k collection hone]

theorem delete_then_get_not_found_witness :
    (getStudent "a@x.com" none (deleteStudentHandler "a@x.com" none [cal, ann]).2).1
      = ⟨StatusNotFound, .error "Student not found"⟩ :=
  delete_then_get_not_found [cal, ann] "a@x.com" (by decide)

/-- Claim C3 fails as stated: after the same body was registered twice, one
delete removes one of the two records and the lookup of the key still answers
200. -/
theorem delete_then_get_finds_duplicate :
    run [.register annBody none, .register annBody none] [] = [ann, ann]
      ∧ deleteStudentHandler "a@x.com" none [ann, ann]
          = (⟨StatusOK, .deleteResult ⟨1⟩⟩, [ann])
      ∧ (getStudent "a@x.com" none (deleteStudentHandler "a@x.com" none [ann, ann]).2).1
          = ⟨200, .student ann⟩ := by
  refine ⟨rfl, rfl, rfl⟩

/-! ## Update of a key that is not stored -/

/-- Claim C4: for every store state, every key `k` that is the `emailId` of no
stored record and every body that binds, `updateStudentDetails` with path key
`k` (the storage call going through) responds with status 200 and an update
outcome whose matched count (and modified and upserted count) is zero, and the
store afterwards is the store before. -/
theorem update_unknown_key_is_noop (collection : Collection) (k : String) (body : Body)
    (b : Student) (hbind : ShouldBindJSON body = .ok b)
    (hk : ∀ d ∈ collection, d.EmailId ≠ k) :
    updateStudentDetails k body none collection
      = (⟨StatusOK, .updateResult ⟨0, 0, 0⟩⟩, collection) := by
  simp [updateStudentDetails, hbind, UpdateOne_of_no_match k (setFields b) collection hk]

theorem update_unknown_key_is_noop_witness :
    updateStudentDetails "z@x.com" annBody none [cal, bob]
      = (⟨StatusOK, .updateResult ⟨0, 0, 0⟩⟩, [cal, bob]) :=
  update_unknown_key_is_noop [cal, bob] "z@x.com" annBody ann bind_annBody (by decide)

/-! ## Keys of the documents of a run -/

theorem mem_UpdateOne (k : String) (u : Student → Student) (l : Collection) (d : Student)
    (h : d ∈ (UpdateOne k u l).2) : d ∈ l ∨ ∃ x ∈ l, d = u x := by
  induction l with
  | nil => simp [UpdateOne] at h
  | cons y ys ih =>
    by_cases hy : y.EmailId = k
    · simp [UpdateOne, hy] at h
      rcases h with rfl | h
      · exact Or.inr ⟨y, List.mem_cons_self _ _, rfl⟩
      · exact Or.inl (List.mem_cons_of_mem _ h)
    · simp [UpdateOne, hy] at h
      rcases h with rfl | h
      · exact Or.inl (List.mem_cons_self _ _)
      · rcases ih h with h1 | ⟨x, hx, rfl⟩
        · exact Or.inl (List.mem_cons_of_mem _ h1)
        · exact Or.inr ⟨x, List.mem_cons_of_mem _ hx, rfl⟩

theorem mem_DeleteOne (k : String) (l : Collection) (d : Student)
    (h : d ∈ (DeleteOne k l).2) : d ∈ l := by
  induction l with
  | nil => simp [DeleteOne] at h
  | cons y ys ih =>
    by_cases hy : y.EmailId = k
    · simp [DeleteOne, hy] at h
      exact List.mem_cons_of_mem _ h
    · simp [DeleteOne, hy] at h
      rcases h with rfl | h
      · exact List.mem_cons_self _ _
      · exact List.mem_cons_of_mem _ (ih h)

/-- A document stored after a request was stored before it, or carries the key
of the body of the request. -/
theorem mem_serve (r : Request) (collection : Collection) (d : Student)
    (h : d ∈ (serve r collection).2) : d ∈ collection ∨ bodyKey r = some d.EmailId := by
  cases r with
  | register body err =>
    simp only [serve, registerStudent] at h
    cases hb : ShouldBindJSON body with
    | error e => simp [hb] at h; exact Or.inl h
    | ok s =>
      cases err with
      | some e => simp [hb] at h; exact Or.inl h
      | none =>
        simp [hb, InsertOne] at h
        rcases h with h | rfl
        · exact Or.inl h
        · exact Or.inr (by simp [bodyKey, hb])
  | get k err =>
    simp only [serve, getStudent] at h
    cases err with
    | some e => exact Or.inl h
    | none =>
      cases hf : FindOne k collection with
      | none => simp [hf] at h; exact Or.inl h
      | some x => simp [hf] at h; exact Or.inl h
  | list e1 e2 =>
    simp only [serve, getAllStudents] at h
    cases e1 with
    | some e => exact Or.inl h
    | none =>
      cases e2 with
      | some e => exact Or.inl h
      | none => exact Or.inl h
  | update k body err =>
    simp only [serve, updateStudentDetails] at h
    cases hb : ShouldBindJSON body with
    | error e => simp [hb] at h; exact Or.inl h
    | ok s =>
      cases err with
      | some e => simp [hb] at h; exact Or.inl h
      | none =>
        simp only [hb] at h
        rcases mem_UpdateOne k (setFields s) collection d h with h1 | ⟨x, _, rfl⟩
        · exact Or.inl h1
        · exact Or.inr (by simp [bodyKey, hb, setFields])
  | delete k err =>
    simp only [serve, deleteStudentHandler] at h
    cases err with
    | some e => exact Or.inl h
    | none => exact Or.inl (mem_DeleteOne k collection d h)

theorem mem_run (reqs : List Request) (collection : Collection) (d : Student)
    (h : d ∈ run reqs collection) :
    d ∈ collection ∨ d.EmailId ∈ reqs.filterMap bodyKey := by
  induction reqs generalizing collection with
  | nil => exact Or.inl h
  | cons r rs ih =>
    rcases ih (serve r collection).2 h with h1 | h1
    · rcases mem_serve r collection d h1 with h2 | h2
      · exact Or.inl h2
      · exact Or.inr (by simp [List.filterMap_cons, h2])
    · right
      cases hk : bodyKey r with
      | none => simpa [List.filterMap_cons, hk] using h1
      | some k0 => simp [List.filterMap_cons, hk, h1]

/-- Claim C5, as the code has it: for every store state reached from the empty
store by a sequence of successful requests and every key `k` that was the
`emailId` of no register body and of no update body of the sequence,
`getStudent` with path key `k` (its lookup meeting no storage fault) returns
status 404 with the error body `Student not found`. -/
theorem get_unused_key_not_found (reqs : List Request) (k : String)
    (_hok : allSucceed reqs [] = true)
    (hk : k ∉ reqs.filterMap bodyKey) :
    (getStudent k none (run reqs [])).1 = ⟨StatusNotFound, .error "Student not found"⟩ := by
  have hnone : FindOne k (run reqs []) = none := by
    rw [FindOne_eq_none_iff]
    intro d hd hdk
    rcases mem_run reqs [] d hd with h | h
    · simp at h
    · exact hk (hdk ▸ h)
  simp [getStudent, hnone]

theorem get_unused_key_not_found_witness :
    (getStudent "z@x.com" none
        (run [.register annBody none, .update "a@x.com" calBody none, .delete "q@x.com" none]
          [])).1
      = ⟨StatusNotFound, .error "Student not found"⟩ :=
  get_unused_key_not_found
    [.register annBody none, .update "a@x.com" calBody none, .delete "q@x.com" none]
    "z@x.com" rfl (by decide)

/-- Claim C5 fails as stated: after `ann` is registered and then updated through
her path key with a body of key `c@x.com`, both requests answering 200, the key
`c@x.com` was never the `emailId` of a registered body, yet its lookup answers
200. -/
theorem get_key_set_by_update_is_found :
    allSucceed [.register annBody none, .update "a@x.com" calBody none] [] = true
      ∧ "c@x.com" ∉
          [Request.register annBody none, .update "a@x.com" calBody none].filterMap registeredKey
      ∧ (getStudent "c@x.com" none
          (run [.register annBody none, .update "a@x.com" calBody none] [])).1
          = ⟨200, .student cal⟩ := by
  refine ⟨rfl, by decide, rfl⟩

/-! ## Register many, then list -/

theorem run_register_all (bodies : List Body) (rs : List Student) (collection : Collection)
    (h : bodies.map ShouldBindJSON = rs.map Except.ok) :
    run (bodies.map (fun b => Request.register b none)) collection = collection ++ rs
      ∧ allSucceed (bodies.map (fun b => Request.register b none)) collection = true := by
  induction bodies generalizing rs collection with
  | nil =>
    cases rs with
    | nil => simp [run, allSucceed]
    | cons r rs => simp at h
  | cons b bs ih =>
    cases rs with
    | nil => simp at h
    | cons r rs =>
      simp only [List.map_cons, List.cons.injEq] at h
      obtain ⟨hb, hrest⟩ := h
      have hstep : serve (.register b none) collection
          = (⟨StatusOK, .insertResult⟩, collection ++ [r]) := by
        simp [serve, registerStudent, hb, InsertOne]
      have := ih rs (collection ++ [r]) hrest
      simp [run, allSucceed, hstep, this]

/-- The part of claim C6 the code meets: for every non-empty list of records
(distinct or not) and bodies binding to them, starting from the empty store and
running `registerStudent` once per body (storage succeeding, every register
answering 200), `getAllStudents` (storage succeeding) returns status 200 and a
slice, written as a JSON array, that is a permutation of exactly those
records: the same members, the same length. -/
theorem register_some_then_list (bodies : List Body) (rs : List Student)
    (hbind : bodies.map ShouldBindJSON = rs.map Except.ok) (hne : rs ≠ []) :
    allSucceed (bodies.map (fun b => Request.register b none)) [] = true
      ∧ ∃ l, (getAllStudents none none
            (run (bodies.map (fun b => Request.register b none)) [])).1
              = ⟨StatusOK, .students (.of l)⟩
          ∧ StudentSlice.toJSON (.of l) = .arr (l.map Student.toJSON)
          ∧ l.Perm rs ∧ l.length = rs.length ∧ ∀ x, x ∈ l ↔ x ∈ rs := by
  obtain ⟨hrun, hok⟩ := run_register_all bodies rs [] hbind
  refine ⟨hok, rs, ?_, rfl, List.Perm.refl _, rfl, fun _ => Iff.rfl⟩
  cases rs with
  | nil => exact absurd rfl hne
  | cons r rest => simp [getAllStudents, Find, hrun, cursorAll]

theorem register_some_then_list_sample :
    allSucceed ([annBody, calBody].map (fun b => Request.register b none)) [] = true
      ∧ ∃ l, (getAllStudents none none
            (run ([annBody, calBody].map (fun b => Request.register b none)) [])).1
              = ⟨StatusOK, .students (.of l)⟩
          ∧ StudentSlice.toJSON (.of l) = .arr (l.map Student.toJSON)
          ∧ l.Perm [ann, cal] ∧ l.length = [ann, cal].length ∧ ∀ x, x ∈ l ↔ x ∈ [ann, cal] :=
  register_some_then_list [annBody, calBody] [ann, cal] rfl (by simp)

/-- Claim C6 at `N = 0`, where the code departs from it: on the empty store
`getAllStudents` (storage succeeding) answers 200 with the nil slice declared
at line 115 of `main.go`, which `cursor.All` leaves nil when there is no
document; its JSON is `null`, which is no JSON array.  With one record
registered the answer is a slice over that record, written as an array. -/
theorem list_of_empty_store_is_null :
    getAllStudents none none (run [] []) = (⟨200, .students .nil⟩, [])
      ∧ StudentSlice.toJSON .nil = JSON.null
      ∧ (∀ items, StudentSlice.toJSON .nil ≠ JSON.arr items)
      ∧ getAllStudents none none (run [.register annBody none] [])
          = (⟨200, .students (.of [ann])⟩, [ann]) := by
  refine ⟨rfl, rfl, ?_, rfl⟩
  intro items h
  simp [StudentSlice.toJSON] at h

/-! ## Update of a stored key -/

/-- Claim C7: for every store state with a record of key `k` and every body that
binds to `b`, `updateStudentDetails` with path key `k` (storage succeeding)
picks the first record whose stored `emailId` is the path value `k`, whatever
`b.emailId` is, and puts the five fields of `b` in its place, every other
record staying where it was; the stored key of that record is then `b.emailId`.
Afterwards `getStudent` with key `b.emailId` answers 200 with a record of that
key, which is this record when no earlier record carries `b.emailId`, and when
`b.emailId` differs from `k` one record fewer carries the key `k`. -/
theorem update_selects_by_path_key (collection : Collection) (k : String) (body : Body)
    (b : Student) (hbind : ShouldBindJSON body = .ok b)
    (hk : ∃ d ∈ collection, d.EmailId = k) :
    ∃ pre old post, collection = pre ++ old :: post ∧ old.EmailId = k
      ∧ (∀ x ∈ pre, x.EmailId ≠ k)
      ∧ updateStudentDetails k body none collection
          = (⟨StatusOK, .updateResult ⟨1, if b = old then 0 else 1, 0⟩⟩, pre ++ b :: post)
      ∧ (∃ r, (getStudent b.EmailId none (pre ++ b :: post)).1 = ⟨StatusOK, .student r⟩
          ∧ r.EmailId = b.EmailId)
      ∧ ((∀ x ∈ pre, x.EmailId ≠ b.EmailId) →
          (getStudent b.EmailId none (pre ++ b :: post)).1 = ⟨StatusOK, .student b⟩)
      ∧ (b.EmailId ≠ k →
          (pre ++ b :: post).countP (fun d => decide (d.EmailId = k)) + 1
            = collection.countP (fun d => decide (d.EmailId = k))) := by
  obtain ⟨pre, old, post, hsplit, hold, hpre⟩ := exists_first_with_key k collection hk
  refine ⟨pre, old, post, hsplit, hold, hpre, ?_, ?_, ?_, ?_⟩
  · simp [updateStudentDetails, hbind, hsplit,
      UpdateOne_at_first k (setFields b) pre post old hold hpre, setFields_eq]
  · cases hf : FindOne b.EmailId (pre ++ b :: post) with
    | none =>
      have := (FindOne_eq_none_iff _ _).mp hf b (by simp)
      exact absurd rfl this
    | some r => exact ⟨r, by simp [getStudent, hf], (FindOne_key _ _ _ hf).1⟩
  · intro hfresh
    have hnone := (FindOne_eq_none_iff b.EmailId pre).mpr hfresh
    have hf : FindOne b.EmailId (pre ++ b :: post) = some b := by
      rw [FindOne_append_of_none _ _ _ hnone]
      simp [FindOne]
    simp [getStudent, hf]
  · intro hne
    subst hsplit
    simp [List.countP_append, List.countP_cons, hne, hold]
    omega

theorem update_selects_by_path_key_witness :
    ∃ pre old post, [cal, ann, bob] = pre ++ old :: post ∧ old.EmailId = "a@x.com"
      ∧ (∀ x ∈ pre, x.EmailId ≠ "a@x.com")
      ∧ updateStudentDetails "a@x.com" calBody none [cal, ann, bob]
          = (⟨StatusOK, .updateResult ⟨1, if cal = old then 0 else 1, 0⟩⟩, pre ++ cal :: post)
      ∧ (∃ r, (getStudent cal.EmailId none (pre ++ cal :: post)).1 = ⟨StatusOK, .student r⟩
          ∧ r.EmailId = cal.EmailId)
      ∧ ((∀ x ∈ pre, x.EmailId ≠ cal.EmailId) →
          (getStudent cal.EmailId none (pre ++ cal :: post)).1 = ⟨StatusOK, .student cal⟩)
      ∧ (cal.EmailId ≠ "a@x.com" →
          (pre ++ cal :: post).countP (fun d => decide (d.EmailId = "a@x.com")) + 1
            = [cal, ann, bob].countP (fun d => decide (d.EmailId = "a@x.com"))) :=
  update_selects_by_path_key [cal, ann, bob] "a@x.com" calBody cal bind_calBody
    ⟨ann, by decide, rfl⟩

/-- The run behind the witness of C7, evaluated: the record of `ann` is the one
replaced, the later record of the same key is not. -/
theorem update_sample_run :
    updateStudentDetails "a@x.com" calBody none [cal, ann, bob]
      = (⟨200, .updateResult ⟨1, 1, 0⟩⟩, [cal, cal, bob]) := by
  rfl

/-! ## Register does not look for the key -/

/-- Claim C8: for every store state and every body that binds to `s`,
`registerStudent` (storage succeeding) responds 200 and the store afterwards is
the store before followed by the one record `s`, whether or not a record of
the same `emailId` is stored; registering the same body twice from the empty
store yields two records sharing one `emailId`. -/
theorem register_appends_one (collection : Collection) (body : Body) (s : Student)
    (hbind : ShouldBindJSON body = .ok s) :
    registerStudent body none collection = (⟨StatusOK, .insertResult⟩, collection ++ [s])
      ∧ run [.register body none, .register body none] [] = [s, s] := by
  simp [run, serve, registerStudent, hbind, InsertOne]

theorem register_appends_one_witness :
    registerStudent annBody none [bob] = (⟨StatusOK, .insertResult⟩, [bob] ++ [ann])
      ∧ run [.register annBody none, .register annBody none] [] = [ann, ann] :=
  register_appends_one [bob] annBody ann bind_annBody

/-! ## Statuses -/

/-- Claim C9: for each of the five handlers and every store state, when the
storage call of the handler reports an error (other than the no-documents
outcome of `getStudent`, which is not a driver fault) the response is status
500 with body `error: Database error`; status 400 is answered exactly by
`registerStudent` and `updateStudentDetails` on a body that fails to bind;
status 404 exactly by `getStudent` on a lookup that goes through and finds no
record; and every status is one of 200, 400, 404, 500. -/
theorem status_taxonomy (r : Request) (collection : Collection) :
    (∀ e, driverError r = some e →
        (serve r collection).1 = ⟨StatusInternalServerError, .error "Database error"⟩)
      ∧ ((serve r collection).1.status = 400 ↔
          ∃ e, bindFailure r = some e ∧ (serve r collection).1.body = .bindError e)
      ∧ ((serve r collection).1.status = 404 ↔
          ∃ k, r = .get k none ∧ FindOne k collection = none)
      ∧ (serve r collection).1.status ∈ [200, 400, 404, 500] := by
  cases r with
  | register body err =>
    cases hb : ShouldBindJSON body <;> cases err <;>
      simp [serve, registerStudent, driverError, bindFailure, hb, StatusOK, StatusBadRequest,
        StatusInternalServerError]
  | get k err =>
    cases err with
    | some e =>
      simp [serve, getStudent, driverError, bindFailure, StatusInternalServerError]
    | none =>
      cases hf : FindOne k collection <;>
        simp [serve, getStudent, driverError, bindFailure, hf, StatusOK, StatusNotFound]
  | list e1 e2 =>
    cases e1 <;> cases e2 <;>
      simp [serve, getAllStudents, driverError, bindFailure, StatusOK,
        StatusInternalServerError]
  | update k body err =>
    cases hb : ShouldBindJSON body <;> cases err <;>
      simp [serve, updateStudentDetails, driverError, bindFailure, hb, StatusOK,
        StatusBadRequest, StatusInternalServerError]
  | delete k err =>
    cases err <;>
      simp [serve, deleteStudentHandler, driverError, bindFailure, StatusOK,
        StatusInternalServerError]

theorem status_taxonomy_witness :
    (serve (.update "a@x.com" calBody (some "context deadline exceeded")) [ann]).1
      = ⟨StatusInternalServerError, .error "Database error"⟩ :=
  (status_taxonomy (.update "a@x.com" calBody (some "context deadline exceeded")) [ann]).1
    "context deadline exceeded" rfl

/-! ## Frame -/

/-- Claim C10: for every store state, key `k`, body and storage outcome,
`updateStudentDetails` with path key `k` leaves the store as it is or replaces
one record whose `emailId` is `k`, every other record (those of another key,
and the further records of key `k`) staying in place unchanged;
`deleteStudentHandler` with path key `k` leaves the store as it is or removes
one record whose `emailId` is `k`, every other record staying unchanged and in
order; `getStudent` and `getAllStudents` leave the whole store unchanged. -/
theorem handlers_frame (collection : Collection) (k : String) (body : Body)
    (err err2 : Option String) :
    ((updateStudentDetails k body err collection).2 = collection
        ∨ ∃ pre old new post, collection = pre ++ old :: post ∧ old.EmailId = k
            ∧ (updateStudentDetails k body err collection).2 = pre ++ new :: post)
      ∧ ((deleteStudentHandler k err collection).2 = collection
        ∨ ∃ pre old post, collection = pre ++ old :: post ∧ old.EmailId = k
            ∧ (deleteStudentHandler k err collection).2 = pre ++ post)
      ∧ (getStudent k err collection).2 = collection
      ∧ (getAllStudents err err2 collection).2 = collection := by
  refine ⟨?_, ?_, ?_, ?_⟩
  · cases hb : ShouldBindJSON body with
    | error e => simp [updateStudentDetails, hb]
    | ok b =>
      cases err with
      | some e => simp [updateStudentDetails, hb]
      | none =>
        by_cases hk : ∃ d ∈ collection, d.EmailId = k
        · obtain ⟨pre, old, post, hsplit, hold, hpre⟩ := exists_first_with_key k collection hk
          right
          refine ⟨pre, old, setFields b old, post, hsplit, hold, ?_⟩
          simp [updateStudentDetails, hb, hsplit,
            UpdateOne_at_first k (setFields b) pre post old hold hpre]
        · left
          have hno : ∀ d ∈ collection, d.EmailId ≠ k := fun d hd hdk => hk ⟨d, hd, hdk⟩
          simp [updateStudentDetails, hb, UpdateOne_of_no_match k (setFields b) collection hno]
  · cases err with
    | some e => simp [deleteStudentHandler]
    | none =>
      by_cases hk : ∃ d ∈ collection, d.EmailId = k
      · obtain ⟨pre, old, post, hsplit, hold, hpre⟩ := exists_first_with_key k collection hk
        right
        refine ⟨pre, old, post, hsplit, hold, ?_⟩
        simp [deleteStudentHandler, hsplit, DeleteOne_at_first k pre post old hold hpre]
      · left
        have hno : ∀ d ∈ collection, d.EmailId ≠ k := fun d hd hdk => hk ⟨d, hd, hdk⟩
        simp [deleteStudentHandler, DeleteOne_of_no_match k collection hno]
  · cases err with
    | some e => simp [getStudent]
    | none => cases hf : FindOne k collection <;> simp [getStudent, hf]
  · cases err <;> cases err2 <;> simp [getAllStudents]

end SchoolManagement
